import Mathlib

/-!
Verification of the rego build-watch-supervise tool (sqs/rego).

The repository holds two iterations of the same design:
  - `src/rego.go` (older iteration; referred to below as the rego-iteration),
  - `src/unnamed/part_000` (newer iteration, with goroot filtering,
    extra-watches, and signal handling; referred to as the part000-iteration).

This file shallowly embeds the pure decision logic of both iterations:
  - the `filepath.Ext` / `filepath.Base` path helpers used by the watch filter,
  - `matchFile` (the watch filter of the part000-iteration),
  - the debounced trigger queue (the `needsInstall` goroutine),
  - the dependency-resolution worklist loops of both iterations,
  - the process supervisor goroutine (the `restart` channel consumer),
  - `installAndRestart` (build outcome → restart message),
  - the filesystem-event handler goroutine of the part000-iteration.

External capabilities (fsnotify delivery, `filepath.Walk` enumeration,
`go/build` package lookup, the OS process table) are modelled as explicit
inputs: an event is a value, a walk is the list of entries it enumerates,
`build.Import` is a partial map from identifiers to packages, and process
operations are emitted as an (ordered) action list.
-/

namespace Rego

/-- Embedding of Go `path/filepath.Ext` scanning a reversed character list:
walk backwards from the end of the path; stop with the empty extension at a
path separator or at the front; on the first dot, return the suffix from that
dot (accumulated in `acc`). -/
def extRevAux : List Char → List Char → List Char
  | _, [] => []
  | acc, c :: rest =>
    if c = '/' then []
    else if c = '.' then '.' :: acc
    else extRevAux (c :: acc) rest

/-- Go `path/filepath.Ext`: the suffix beginning at the final dot in the final
path element; empty if there is no dot. -/
def filepathExt (s : String) : String :=
  ⟨extRevAux [] s.data.reverse⟩

/-- Go `path/filepath.Base`: the last element of the path, after stripping
trailing separators; "." for the empty path, "/" if the path is all
separators. -/
def filepathBase (s : String) : String :=
  if s.data = [] then "."
  else
    let r := s.data.reverse.dropWhile (fun c => c = '/')
    let b := (r.takeWhile (fun c => c ≠ '/')).reverse
    if b = [] then "/" else ⟨b⟩

/-- Go `strings.HasPrefix(s, ".")`: whether the first character is a dot. -/
def startsWithDot (s : String) : Bool :=
  match s.data with
  | [] => false
  | c :: _ => c = '.'

/-- The `matchFile` closure of the part000-iteration:
`(filepath.Ext(name) == ".go" && !strings.HasPrefix(filepath.Base(name), ".")) || extraPaths[name]`.
`extraPaths` is the map of absolute paths resolved from the `-extra-watches`
glob patterns at startup, modelled as a list with membership lookup. -/
def matchFile (extraPaths : List String) (name : String) : Bool :=
  (filepathExt name == ".go" && !(startsWithDot (filepathBase name))) || extraPaths.contains name

example : matchFile [] "/w/a.go" = true := by decide
example : matchFile [] "/w/a.txt" = false := by decide
example : matchFile [] "/w/.hidden.go" = false := by decide
example : matchFile ["/w/a.txt"] "/w/a.txt" = true := by decide

/-! ## Debounced trigger queue

The `install` goroutine of both iterations (identical in the two files):

    needsInstall := 0
    for {
      timerChan := if needsInstall > 0 { time.After(200ms) } else { never }
      select {
      case <-install:   needsInstall++; continue
      case <-timerChan: needsInstall = 0; installAndRestart()
      }
    }

State: the pending counter and the number of `installAndRestart` invocations
so far. A timer-expiry event can only be delivered while the counter is
positive (with a zero counter the timer channel never fires). -/

/-- State of the debounce goroutine: the `needsInstall` pending counter and
the number of Build Executor invocations performed so far. -/
structure DebounceState where
  needsInstall : Nat
  builds : Nat
deriving DecidableEq, Repr

/-- An input consumed by one iteration of the debounce loop: a trigger signal
on the `install` channel, or expiry of the armed quiet-period timer. -/
inductive DebounceEvent
  | trigger
  | timerFire
deriving DecidableEq, Repr

/-- One iteration of the debounce loop: a trigger increments the pending
counter; timer expiry resets the counter to zero and invokes the Build
Executor once. -/
def debounceStep (s : DebounceState) : DebounceEvent → DebounceState
  | .trigger => ⟨s.needsInstall + 1, s.builds⟩
  | .timerFire => ⟨0, s.builds + 1⟩

/-- Running the debounce loop over a sequence of delivered events. -/
def debounceRun (s : DebounceState) (evs : List DebounceEvent) : DebounceState :=
  evs.foldl debounceStep s

theorem debounceRun_replicate_trigger (n b : Nat) (K : Nat) :
    debounceRun ⟨n, b⟩ (List.replicate K .trigger) = ⟨n + K, b⟩ := by
  induction K generalizing n with
  | zero => simp [debounceRun]
  | succ k ih =>
    simp only [List.replicate_succ, debounceRun, List.foldl_cons] at *
    rw [show debounceStep ⟨n, b⟩ .trigger = ⟨n + 1, b⟩ from rfl]
    rw [ih (n + 1)]
    congr 1
    omega

theorem debounceRun_append (s : DebounceState) (l₁ l₂ : List DebounceEvent) :
    debounceRun s (l₁ ++ l₂) = debounceRun (debounceRun s l₁) l₂ := by
  simp [debounceRun, List.foldl_append]

/-- C1: for every burst of K ≥ 1 trigger signals delivered to the debounced
trigger queue within one quiet period, followed by the expiry of the armed
timer, the Build Executor is invoked exactly once (the build count goes from
`b` to `b + 1`) and the pending counter is reset to zero: a burst of K rapid
changes produces exactly one build, not K. -/
theorem debounce_burst_one_build (K b : Nat) (hK : 1 ≤ K) :
    debounceRun ⟨0, b⟩ (List.replicate K .trigger ++ [.timerFire]) =
      ⟨0, b + 1⟩ := by
  rw [debounceRun_append, debounceRun_replicate_trigger]
  rfl

/-- Witness for C1 at a concrete burst: three rapid triggers then timer
expiry, starting from an idle state with 5 builds done, yield exactly one
more build and a zero counter. -/
theorem debounce_burst_one_build_witness :
    1 ≤ 3 ∧
      debounceRun ⟨0, 5⟩ (List.replicate 3 .trigger ++ [.timerFire]) =
        ⟨0, 6⟩ :=
  ⟨by decide, debounce_burst_one_build 3 5 (by decide)⟩

/-! ## Process supervisor

The `restart` channel consumer of the part000-iteration:

    var proc *os.Process
    for alive := range restart {
      if proc != nil {
        if err := proc.Signal(os.Interrupt); err != nil { log; proc.Kill() }
        proc.Wait()
      }
      if !alive { os.Exit(0) }
      cmd := exec.Command(...); cmd.Start(); proc = cmd.Process
    }

Processes are identified by abstract pids (`Nat`); the handle is
`Option Nat` (`none` = no supervised process). The step emits the ordered
list of process operations it performs. Failure of signal delivery
(`signalFails`) and of `cmd.Start` (`startFails`) are external outcomes,
passed as inputs. -/

/-- A process-lifecycle operation performed by the supervisor goroutine, in
program order. -/
inductive SupAction
  | signalInterrupt (pid : Nat)
  | kill (pid : Nat)
  | wait (pid : Nat)
  | startProc (pid : Nat)
  | exitZero
deriving DecidableEq, Repr

/-- One iteration of the supervisor goroutine on receiving `alive` from the
`restart` channel: tear down the current process if any (interrupt; kill only
if signal delivery failed; then wait), then either exit the tool with status
0 (`alive = false`) or start the new instance, which becomes the current
supervised process (unless `cmd.Start` failed, in which case `cmd.Process`
is nil). Returns the ordered action list and the new process handle. -/
def supervisorStep (proc : Option Nat) (alive : Bool) (signalFails : Bool)
    (startFails : Bool) (newPid : Nat) : List SupAction × Option Nat :=
  let teardown : List SupAction :=
    match proc with
    | some p =>
      [SupAction.signalInterrupt p] ++
        (if signalFails then [SupAction.kill p] else []) ++ [SupAction.wait p]
    | none => []
  if alive then
    (teardown ++ [SupAction.startProc newPid],
      if startFails then none else some newPid)
  else
    (teardown ++ [SupAction.exitZero], proc)

/-- Outcome of one `installAndRestart` invocation: the message sent on the
`restart` channel, if any, and the updated `nrestarts` counter. -/
structure InstallOutcome where
  restartMsg : Option Bool
  nrestarts : Nat
deriving DecidableEq, Repr

/-- The `installAndRestart` closure of the part000-iteration, abstracted over
the external build command's outcome: on `go install` success it increments
`nrestarts` and sends `true` on the `restart` channel; on failure it only
logs "compilation failed" and sends nothing. -/
def installAndRestart (buildOk : Bool) (nrestarts : Nat) : InstallOutcome :=
  if buildOk then ⟨some true, nrestarts + 1⟩ else ⟨none, nrestarts⟩

/-- One full build cycle as seen by the supervisor: run `installAndRestart`
with the given build outcome; if it sends a restart message, the supervisor
goroutine consumes it; otherwise the supervisor is never woken and the
process handle is untouched. -/
def buildCycle (buildOk : Bool) (nrestarts : Nat) (proc : Option Nat)
    (signalFails : Bool) (startFails : Bool) (newPid : Nat) :
    List SupAction × Option Nat :=
  match (installAndRestart buildOk nrestarts).restartMsg with
  | none => ([], proc)
  | some alive => supervisorStep proc alive signalFails startFails newPid

/-- C4: on every successful build with a supervised process `p` currently
running, the supervisor first sends `p` the interrupt signal (falling back to
kill only when delivery fails) and waits on `p`, and only after that wait
does it start the new instance `q`; when the start succeeds the new instance
becomes the current supervised process. The action list is strictly ordered:
interrupt, (kill), wait, start. -/
theorem build_success_graceful_restart (p q n : Nat) (sf : Bool) :
    buildCycle true n (some p) sf false q =
      ([SupAction.signalInterrupt p] ++
        (if sf then [SupAction.kill p] else []) ++
        [SupAction.wait p, SupAction.startProc q],
        some q) := by
  cases sf <;> rfl

/-- C5: when the external build command fails, `installAndRestart` sends no
restart message, so the supervisor performs no process operation at all and
the previously running supervised process (any handle, even none) is left
unchanged; the loop returns to idle. -/
theorem build_failure_leaves_process (n q : Nat) (proc : Option Nat)
    (sf stf : Bool) :
    buildCycle false n proc sf stf q = ([], proc) ∧
      (installAndRestart false n).restartMsg = none ∧
      (installAndRestart false n).nrestarts = n := by
  exact ⟨rfl, rfl, rfl⟩

/-- An OS termination signal forwarded by the signal-glue goroutine
(`signal.Notify(c, SIGTERM, SIGINT, SIGHUP)`). -/
inductive OsSignal
  | sigint
  | sigterm
  | sighup
deriving DecidableEq, Repr

/-- The signal-glue goroutine of the part000-iteration: on any of the three
subscribed termination signals it sends `false` on the `restart` channel. -/
def signalHandlerMessage : OsSignal → Bool :=
  fun _ => false

/-- Shutdown processing: the supervisor consumes the `false` message produced
by the signal handler for signal `sig`. -/
def onTermSignal (sig : OsSignal) (proc : Option Nat) (signalFails : Bool)
    (startFails : Bool) (newPid : Nat) : List SupAction × Option Nat :=
  supervisorStep proc (signalHandlerMessage sig) signalFails startFails newPid

/-- C9: on any OS termination signal (interrupt, terminate or hang-up) a
shutdown request reaches the supervisor; a running child `p` is sent a
graceful interrupt (kill only when signal delivery fails) and fully waited
on, and only after the wait does the tool itself exit with status 0 (the
action list ends with exit-zero, preceded by the wait); with no child the
tool exits with status 0 immediately. -/
theorem term_signal_graceful_shutdown (sig : OsSignal) (p q : Nat)
    (sf stf : Bool) :
    onTermSignal sig (some p) sf stf q =
      ([SupAction.signalInterrupt p] ++
        (if sf then [SupAction.kill p] else []) ++
        [SupAction.wait p, SupAction.exitZero], some p) ∧
      onTermSignal sig none sf stf q = ([SupAction.exitZero], none) := by
  cases sf <;> exact ⟨rfl, rfl⟩

/-! ## Filesystem-event handling (part000-iteration)

The per-event goroutine:

    switch ev.Op {
    case Create, Rename, Write:
      paths := []string{ev.Name}
      if fi, err := os.Stat(ev.Name); err != nil { return }
      else if fi.Mode().IsDir() {
        filepath.Walk(ev.Name, func(path, info, err) {
          if info.Mode().IsDir() || matchFile(info.Name()) { paths = append(paths, path) }
        })
      } else if !matchFile(ev.Name) { return }
      for _, path := range paths { w.Add(path) }
    case Remove: w.Remove(ev.Name)
    case Chmod:  return
    }
    install <- struct{}{}

`os.Stat` and `filepath.Walk` are external: the stat outcome is an input
(`statErr`, `statFile`, or `statDir` carrying the list of entries the walk
enumerates — each with its full path, its base name as passed to
`info.Name()`, and whether it is a directory). The handler's effect is the
list of `w.Add` requests, the list of `w.Remove` requests, and whether an
install trigger is enqueued. -/

/-- A filesystem notification kind, as in fsnotify. -/
inductive FsOp
  | create
  | write
  | rename
  | remove
  | chmod
deriving DecidableEq, Repr

/-- A filesystem notification: kind and affected path. -/
structure FsEvent where
  op : FsOp
  name : String
deriving DecidableEq, Repr

/-- One entry enumerated by `filepath.Walk` under the event path: the full
path handed to the callback, the base name (`info.Name()`), and whether the
entry is a directory. -/
structure WalkEntry where
  path : String
  base : String
  isDir : Bool
deriving DecidableEq, Repr

/-- Outcome of `os.Stat` on the event path: error, a regular file, or a
directory together with the entries a recursive walk of it enumerates
(`filepath.Walk` visits the root directory itself first, then every nested
entry). -/
inductive StatResult
  | statErr
  | statFile
  | statDir (entries : List WalkEntry)

/-- The walk callback's filter: keep an entry's full path when the entry is a
directory (unconditionally) or when `matchFile` accepts its base name — note
the source passes `info.Name()`, the base name, to `matchFile`, so the
extra-path lookup inside a walk is against the base name, not the absolute
path. -/
def walkFilter (extraPaths : List String) (entries : List WalkEntry) :
    List String :=
  entries.filterMap fun e =>
    if e.isDir || matchFile extraPaths e.base then some e.path else none

/-- Effect of handling one filesystem event: watch-add requests, watch-remove
requests, and whether a build trigger is enqueued on the `install` channel. -/
structure HandlerResult where
  addPaths : List String
  removePaths : List String
  trigger : Bool
deriving DecidableEq, Repr

/-- The per-event goroutine of the part000-iteration: create/rename/write
events stat the path — on stat error the event is dropped; on a directory the
path plus every walk-filtered entry is added and a trigger is enqueued; on a
file, only a `matchFile`-accepted path is added and triggers, otherwise the
event is dropped. A remove event requests removal of that exact path and
enqueues a trigger unconditionally. A chmod event is dropped. -/
def handleEvent (extraPaths : List String) (ev : FsEvent) (st : StatResult) :
    HandlerResult :=
  match ev.op with
  | .create | .rename | .write =>
    match st with
    | .statErr => ⟨[], [], false⟩
    | .statDir entries => ⟨ev.name :: walkFilter extraPaths entries, [], true⟩
    | .statFile =>
      if matchFile extraPaths ev.name then ⟨[ev.name], [], true⟩
      else ⟨[], [], false⟩
  | .remove => ⟨[], [ev.name], true⟩
  | .chmod => ⟨[], [], false⟩

/-- C6 counterexample: a remove event on the file `/w/notes.txt` — whose
extension does not match `.go` and which is in no extra-watch set — is not
ignored: the handler enqueues a build trigger (and requests removal of the
path), contradicting the claim that every event of any kind on such a file
is ignored entirely. -/
theorem remove_nonmatching_triggers :
    (handleEvent [] ⟨FsOp.remove, "/w/notes.txt"⟩ .statFile).trigger = true ∧
      matchFile [] "/w/notes.txt" = false := by
  exact ⟨rfl, by decide⟩

/-- C6 amended: for create, write and rename events on a path that stats as a
file, if the file's name fails `matchFile` (extension not `.go`, or dotted
base name, and not in the extra-path set) the event is ignored entirely — no
watch addition, no removal, no trigger; a chmod event is likewise ignored
regardless of stat outcome. (A remove event is the exception: it requests
removal of the exact path and enqueues a trigger regardless of the filter.) -/
theorem nonmatching_file_event_ignored (extraPaths : List String)
    (name : String) (h : matchFile extraPaths name = false) :
    handleEvent extraPaths ⟨FsOp.create, name⟩ .statFile = ⟨[], [], false⟩ ∧
      handleEvent extraPaths ⟨FsOp.write, name⟩ .statFile = ⟨[], [], false⟩ ∧
      handleEvent extraPaths ⟨FsOp.rename, name⟩ .statFile = ⟨[], [], false⟩ ∧
      (∀ st : StatResult,
        handleEvent extraPaths ⟨FsOp.chmod, name⟩ st = ⟨[], [], false⟩) := by
  refine ⟨?_, ?_, ?_, fun st => rfl⟩ <;> simp [handleEvent, h]

/-- Witness for C6 amended at the concrete non-matching file `/w/notes.txt`
with an empty extra-path set. -/
theorem nonmatching_file_event_ignored_witness :
    matchFile [] "/w/notes.txt" = false ∧
      handleEvent [] ⟨FsOp.create, "/w/notes.txt"⟩ .statFile =
        ⟨[], [], false⟩ :=
  ⟨by decide, (nonmatching_file_event_ignored [] "/w/notes.txt" (by decide)).1⟩

/-- C7 counterexample: event `create /w/new` on a directory whose walk
enumerates the directory itself and the pre-existing file
`/w/new/notes.txt`, with that file's absolute path in the extra-watch set.
The claim says every nested file in ExtraPathSet is added; but the walk
callback passes the base name `notes.txt` to `matchFile`, the extra-path set
holds absolute paths, and the extension does not match, so the file is not
added to the watch set. -/
theorem dir_walk_misses_extra_path :
    handleEvent ["/w/new/notes.txt"] ⟨FsOp.create, "/w/new"⟩
        (.statDir [⟨"/w/new", "new", true⟩,
          ⟨"/w/new/notes.txt", "notes.txt", false⟩]) =
      ⟨["/w/new", "/w/new"], [], true⟩ ∧
      ("/w/new/notes.txt" ∈
        (handleEvent ["/w/new/notes.txt"] ⟨FsOp.create, "/w/new"⟩
          (.statDir [⟨"/w/new", "new", true⟩,
            ⟨"/w/new/notes.txt", "notes.txt", false⟩])).addPaths) = False := by
  constructor
  · rfl
  · simp only [eq_iff_iff, iff_false]
    decide

/-- C7 amended: on a create, rename or write event for a path that stats as a
directory, every entry the recursive walk enumerates whose kind is directory
is added to the watch set unconditionally, and every enumerated file whose
BASE NAME passes `matchFile` (extension `.go` with a non-dotted name, or base
name — not absolute path — in the extra-path set) is added; the event path
itself is added and a build trigger is enqueued. Thus all pre-existing
`.go` files inside a newly created subdirectory become watched without any
subsequent event. -/
theorem dir_walk_adds_dirs_and_matching_files (extraPaths : List String)
    (name : String) (entries : List WalkEntry) (e : WalkEntry)
    (he : e ∈ entries) :
    (e.isDir = true →
      e.path ∈ (handleEvent extraPaths ⟨FsOp.create, name⟩
        (.statDir entries)).addPaths) ∧
    (matchFile extraPaths e.base = true →
      e.path ∈ (handleEvent extraPaths ⟨FsOp.create, name⟩
        (.statDir entries)).addPaths) ∧
    name ∈ (handleEvent extraPaths ⟨FsOp.create, name⟩
      (.statDir entries)).addPaths ∧
    (handleEvent extraPaths ⟨FsOp.create, name⟩
      (.statDir entries)).trigger = true := by
  refine ⟨?_, ?_, ?_, rfl⟩
  · intro hd
    simp only [handleEvent, HandlerResult.mk.injEq, List.mem_cons]
    right
    simp only [walkFilter, List.mem_filterMap]
    exact ⟨e, he, by simp [hd]⟩
  · intro hm
    simp only [handleEvent, List.mem_cons]
    right
    simp only [walkFilter, List.mem_filterMap]
    exact ⟨e, he, by simp [hm]⟩
  · simp [handleEvent]

/-- Witness for C7 amended: a created directory `/w/new` containing the
pre-existing matching file `b.go` — the file's full path is among the watch
additions produced by the single directory event. -/
theorem dir_walk_adds_dirs_and_matching_files_witness :
    (⟨"/w/new/b.go", "b.go", false⟩ : WalkEntry) ∈
        [(⟨"/w/new", "new", true⟩ : WalkEntry),
          ⟨"/w/new/b.go", "b.go", false⟩] ∧
      "/w/new/b.go" ∈ (handleEvent [] ⟨FsOp.create, "/w/new"⟩
        (.statDir [⟨"/w/new", "new", true⟩,
          ⟨"/w/new/b.go", "b.go", false⟩])).addPaths :=
  ⟨by decide,
    (dir_walk_adds_dirs_and_matching_files [] "/w/new"
      [⟨"/w/new", "new", true⟩, ⟨"/w/new/b.go", "b.go", false⟩]
      ⟨"/w/new/b.go", "b.go", false⟩ (by decide)).2.1 (by decide)⟩

/-- C10: a create, rename or write event on a file whose base name begins
with a dot is treated as non-matching even when its extension is `.go`: it
is neither added to the watch set nor allowed to trigger a build, provided
its path is not in the extra-watch set (the extra-path lookup is the only
way such a file can match). -/
theorem dotfile_event_ignored (extraPaths : List String) (name : String)
    (hdot : startsWithDot (filepathBase name) = true)
    (hextra : extraPaths.contains name = false) :
    matchFile extraPaths name = false ∧
      handleEvent extraPaths ⟨FsOp.create, name⟩ .statFile = ⟨[], [], false⟩ ∧
      handleEvent extraPaths ⟨FsOp.write, name⟩ .statFile = ⟨[], [], false⟩ ∧
      handleEvent extraPaths ⟨FsOp.rename, name⟩ .statFile = ⟨[], [], false⟩ := by
  have hm : matchFile extraPaths name = false := by
    unfold matchFile
    rw [hdot, hextra]
    simp
  refine ⟨hm, ?_, ?_, ?_⟩ <;> simp [handleEvent, hm]

/-- Witness for C10 at the concrete dot-file `/w/.hidden.go`: its extension
is `.go`, its base name starts with a dot, and the create event on it is
ignored. -/
theorem dotfile_event_ignored_witness :
    filepathExt "/w/.hidden.go" = ".go" ∧
      startsWithDot (filepathBase "/w/.hidden.go") = true ∧
      handleEvent [] ⟨FsOp.create, "/w/.hidden.go"⟩ .statFile =
        ⟨[], [], false⟩ :=
  ⟨by decide, by decide,
    (dotfile_event_ignored [] "/w/.hidden.go" (by decide) (by decide)).2.1⟩

/-! ## The outer watch loop (part000-iteration)

    for {
      select {
      case ev, ok := <-w.Events:
        if !ok { break }
        go func() { ...handleEvent... }()
      case err, ok := <-w.Errors:
        if !ok { break }
        if ok { log.Fatal(err) }
      }
    }

An error delivered on the watcher's error stream is passed to `log.Fatal`,
which terminates the process; filesystem events are handed to the per-event
goroutine, which never terminates the process (watch add/remove failures are
only logged). -/

/-- One input consumed by the outer watch loop: a filesystem event (with its
stat outcome) or an error delivered on the watcher's error stream. -/
inductive LoopInput
  | fsEvent (ev : FsEvent) (st : StatResult)
  | watchError

/-- One iteration of the outer watch loop: the handler effect plus whether
the iteration terminates the whole tool (`log.Fatal`). -/
def loopStep (extraPaths : List String) : LoopInput → HandlerResult × Bool
  | .fsEvent ev st => (handleEvent extraPaths ev st, false)
  | .watchError => (⟨[], [], false⟩, true)

/-- C8 counterexample: an error delivered on the filesystem-notification
primitive's error stream is not absorbed — the loop iteration calls
`log.Fatal`, terminating the tool, contradicting the claim that every
steady-state failure is absorbed and logged. -/
theorem watch_error_is_fatal :
    (loopStep [] .watchError).2 = true := rfl

/-- C8 amended: after startup, no filesystem event — whatever its kind or
stat outcome, including stat errors and watch add/remove failures inside the
handler, which are only logged — terminates the tool, and a failed build
does not terminate the tool either; but an error delivered on the
filesystem-notification primitive's error stream is passed to `log.Fatal`
and does terminate it. -/
theorem steady_state_fatality (extraPaths : List String) :
    (∀ (ev : FsEvent) (st : StatResult),
      (loopStep extraPaths (.fsEvent ev st)).2 = false) ∧
      (∀ n : Nat, (installAndRestart false n).restartMsg = none) ∧
      (loopStep extraPaths .watchError).2 = true := by
  exact ⟨fun ev st => rfl, fun n => rfl, rfl⟩

/-! ## Dependency resolution

Both iterations run a worklist loop over `pkgs` (index `i`), seeded with the
root package, resolving each unseen direct import through `build.Import` and
appending it. `build.Import` is modelled as a partial map
`env : String → Option GoPackage`; `log.Fatal` on a failed import is the
`fatal` outcome. The part000-iteration skips the whole body for packages
with `Goroot` set, and — on encountering the cgo sentinel `"C"` or a
relative import — executes `return`, exiting `main` (the `earlyReturn`
outcome). The rego-iteration has no goroot check, watches each package's
directory and each of its Go files, and `continue`s past `"C"`. The per-pkg
goroutines of the part000-iteration (mutex-guarded appends, joined by
`wg.Wait` before the next package) are linearized into in-order processing
of the import list. -/

/-- A `go/build` package as the resolver sees it: import path, directory,
the `Goroot` flag (foundation-library member), its Go source file names, and
its direct-import identifiers. -/
structure GoPackage where
  importPath : String
  dir : String
  goroot : Bool
  goFiles : List String
  imports : List String
deriving DecidableEq, Repr

/-- A finite `build.Import` environment from a list of known packages. -/
def envOf (l : List GoPackage) : String → Option GoPackage :=
  fun s => l.find? fun p => p.importPath == s

/-- Outcome of processing one package's direct-import list. -/
inductive ImpStep
  | fatalMissing (imp : String)
  | earlyReturn (pkgs : List GoPackage) (seen : List String)
  | done (pkgs : List GoPackage) (seen : List String)
deriving DecidableEq, Repr

/-- Final outcome of a resolver run. -/
inductive ResolveOut
  | ok (pkgs : List GoPackage) (watched : List String)
  | fatal (missingImport : String)
  | earlyReturn (pkgs : List GoPackage) (watched : List String)
  | outOfFuel
deriving DecidableEq, Repr

/-- The part000-iteration's inner import loop for one package: skip imports
already in `seen`; on the cgo sentinel `"C"` or a relative import, execute
`return` from `main` (early return); otherwise `build.Import` the identifier
(fatal when it cannot be resolved) and append the package to the worklist,
marking the identifier seen. -/
def processImports (env : String → Option GoPackage) :
    List String → List GoPackage → List String → ImpStep
  | [], pkgs, seen => .done pkgs seen
  | imp :: rest, pkgs, seen =>
    if seen.contains imp then processImports env rest pkgs seen
    else if imp = "C" || startsWithDot imp then .earlyReturn pkgs seen
    else
      match env imp with
      | none => .fatalMissing imp
      | some p => processImports env rest (pkgs ++ [p]) (seen ++ [imp])

/-- The part000-iteration's resolver worklist loop: for package `i`, if its
`Goroot` flag is set the whole body is skipped (`continue`): the directory
is not watched and the imports are not examined. Otherwise the directory is
watched and the import list is processed; an early return propagates out of
`main` and a missing import is fatal. `fuel` bounds the number of loop
iterations. -/
def resolveLoop (env : String → Option GoPackage) :
    Nat → List GoPackage → Nat → List String → List String → ResolveOut
  | 0, _, _, _, _ => .outOfFuel
  | fuel + 1, pkgs, i, seen, watched =>
    if h : i < pkgs.length then
      let pkg := pkgs.get ⟨i, h⟩
      if pkg.goroot then resolveLoop env fuel pkgs (i + 1) seen watched
      else
        match processImports env pkg.imports pkgs seen with
        | .earlyReturn pkgs2 _ => .earlyReturn pkgs2 (watched ++ [pkg.dir])
        | .fatalMissing imp => .fatal imp
        | .done pkgs2 seen2 =>
          resolveLoop env fuel pkgs2 (i + 1) seen2 (watched ++ [pkg.dir])
    else .ok pkgs watched

/-- The rego-iteration's inner import loop: identical except the cgo
sentinel `"C"` is skipped with `continue` (and there is no relative-import
check). -/
def processImportsRego (env : String → Option GoPackage) :
    List String → List GoPackage → List String → ImpStep
  | [], pkgs, seen => .done pkgs seen
  | imp :: rest, pkgs, seen =>
    if seen.contains imp then processImportsRego env rest pkgs seen
    else if imp = "C" then processImportsRego env rest pkgs seen
    else
      match env imp with
      | none => .fatalMissing imp
      | some p => processImportsRego env rest (pkgs ++ [p]) (seen ++ [imp])

/-- The rego-iteration's resolver worklist loop: every package (no goroot
check) has its directory and each of its Go source files watched, then the
loop processes its import list. -/
def resolveLoopRego (env : String → Option GoPackage) :
    Nat → List GoPackage → Nat → List String → List String → ResolveOut
  | 0, _, _, _, _ => .outOfFuel
  | fuel + 1, pkgs, i, seen, watched =>
    if h : i < pkgs.length then
      let pkg := pkgs.get ⟨i, h⟩
      let watched2 :=
        watched ++ [pkg.dir] ++ pkg.goFiles.map fun f => pkg.dir ++ "/" ++ f
      match processImportsRego env pkg.imports pkgs seen with
      | .earlyReturn pkgs2 _ => .earlyReturn pkgs2 watched2
      | .fatalMissing imp => .fatal imp
      | .done pkgs2 seen2 =>
        resolveLoopRego env fuel pkgs2 (i + 1) seen2 watched2
    else .ok pkgs watched

/-- A non-foundation root package importing only the foundation package
`fmt`. -/
def appPkg : GoPackage := ⟨"app", "/src/app", false, ["main.go"], ["fmt"]⟩

/-- A foundation-library (goroot) package with a direct dependency of its
own. -/
def fmtPkg : GoPackage :=
  ⟨"fmt", "/go/src/fmt", true, ["print.go"], ["internal/fmtsort"]⟩

/-- The foundation-library dependency of `fmt`. -/
def fmtsortPkg : GoPackage :=
  ⟨"internal/fmtsort", "/go/src/internal/fmtsort", true, ["sort.go"], []⟩

/-- Environment in which `app` imports `fmt` which imports
`internal/fmtsort`. -/
def demoEnv : String → Option GoPackage :=
  envOf [appPkg, fmtPkg, fmtsortPkg]

/-- C2 counterexample: resolving `app` (which imports the goroot package
`fmt`, which in turn imports `internal/fmtsort`) terminates with `fmt`
retained in the worklist but — because the goroot check `continue`s past the
entire loop body — `fmt`'s own direct dependency `internal/fmtsort` is never
resolved or appended: the claim that a foundation-library unit's direct
dependencies are still visited is false. (Its directory is indeed excluded
from the watch list.) -/
theorem goroot_deps_not_visited :
    resolveLoop demoEnv 10 [appPkg] 0 [] [] =
      .ok [appPkg, fmtPkg] ["/src/app"] ∧
      fmtPkg.goroot = true ∧
      fmtPkg.imports = ["internal/fmtsort"] ∧
      ¬ ("internal/fmtsort" ∈ [appPkg, fmtPkg].map GoPackage.importPath) ∧
      ¬ ("/go/src/fmt" ∈ ["/src/app"]) := by
  refine ⟨by decide, rfl, rfl, by decide, by decide⟩

/-- C2 amended: a unit marked as a foundation-library member is skipped
entirely by the traversal step that reaches it: its directory is not added
to the watched paths, its direct-dependency identifiers are not examined,
and the loop proceeds directly to the next worklist entry with the seen-set,
worklist and watch list unchanged. Consequently no foundation-library
directory is ever watched, so a change under it never causes a watch-set
addition or a build. -/
theorem goroot_unit_skipped (env : String → Option GoPackage) (fuel : Nat)
    (pkgs : List GoPackage) (i : Nat) (seen watched : List String)
    (h : i < pkgs.length) (hg : (pkgs.get ⟨i, h⟩).goroot = true) :
    resolveLoop env (fuel + 1) pkgs i seen watched =
      resolveLoop env fuel pkgs (i + 1) seen watched := by
  conv_lhs => rw [resolveLoop]
  rw [dif_pos h]
  simp only [hg, if_true]

/-- Witness for C2 amended: processing the goroot package `fmt` at worklist
position 0 just advances the index. -/
theorem goroot_unit_skipped_witness :
    (0 : Nat) < [fmtPkg].length ∧
      resolveLoop demoEnv 5 [fmtPkg] 0 [] [] =
        resolveLoop demoEnv 4 [fmtPkg] 1 [] [] :=
  ⟨by decide,
    goroot_unit_skipped demoEnv 4 [fmtPkg] 0 [] [] (by decide) (by decide)⟩

/-- A non-foundation root package using cgo: its imports contain the
sentinel `"C"` followed by an ordinary package. -/
def cgoApp : GoPackage :=
  ⟨"cgoapp", "/src/cgoapp", false, ["main.go"], ["C", "lib"]⟩

/-- The ordinary dependency of `cgoApp`, after `"C"` in its import list. -/
def libPkg : GoPackage := ⟨"lib", "/src/lib", false, ["lib.go"], []⟩

/-- Environment for the cgo scenario. -/
def cgoEnv : String → Option GoPackage :=
  envOf [cgoApp, libPkg]

/-- C3, behaviour at the failing input: when a package's imports contain the
cgo sentinel `"C"`, the part000-iteration's resolver hits the `return`
statement and aborts out of `main` — the remaining identifier `lib` is never
resolved and the tool exits — while the rego-iteration's resolver skips the
sentinel with `continue` and completes resolution of the rest of the graph
(resolving `lib` and watching its sources), exactly as the claim states. -/
theorem cgo_sentinel_aborts_part000 :
    resolveLoop cgoEnv 10 [cgoApp] 0 [] [] =
      .earlyReturn [cgoApp] ["/src/cgoapp"] ∧
      resolveLoopRego cgoEnv 10 [cgoApp] 0 [] [] =
        .ok [cgoApp, libPkg]
          ["/src/cgoapp", "/src/cgoapp/main.go", "/src/lib",
            "/src/lib/lib.go"] := by
  refine ⟨by decide, by decide⟩

end Rego
